import Mathlib

/-!
A shallow embedding of the `apca` crate's generic endpoint layer
(`src/endpoint.rs`) and of the market-data list endpoints
(`src/data/v2/trades.rs`, `src/data/v2/quotes.rs`, `src/data/v2/prefix.rs`).

Conventions of the embedding:
* HTTP status codes are `Nat` (the numeric code carried by
  `hyper::http::StatusCode`).
* Byte strings (`Vec<u8>`, `&[u8]`) are `List Nat`.
* The opaque error payloads of external crates (`hyper::http::Error`,
  `serde_json::Error`, `hyper::Error`) are wrapped strings: the code under
  verification only constructs, stores and forwards them.
* `chrono::DateTime<Utc>` values are represented by their rendered RFC-3339
  string, which is exactly what chrono's `Serialize` emits into a query.
-/

/-- The payload of a `serde_json::Error`. The crate never inspects it. -/
structure JsonError where
  message : String
deriving DecidableEq

/-- The payload of a `hyper::http::Error`. The crate never inspects it. -/
structure HttpError where
  message : String
deriving DecidableEq

/-- The payload of a `hyper::Error`. The crate never inspects it. -/
structure HyperError where
  message : String
deriving DecidableEq

/-- `endpoint.rs`: `enum EndpointError { Http(HttpError), Json(JsonError) }`. -/
inductive EndpointError where
  | http (e : HttpError)
  | json (e : JsonError)
deriving DecidableEq

/-- The HTTP methods of `hyper::Method` used by the crate. -/
inductive Method where
  | GET
  | POST
  | PUT
  | DELETE
deriving DecidableEq

/-- A parsed URL as the `url` crate keeps it: authority parts plus path and
optional query. `Url::set_path` / `Url::set_query` replace exactly the
`path` / `query` components. -/
structure Url where
  scheme : String
  host : String
  port : Option Nat
  path : String
  query : Option String
deriving DecidableEq

/-- `url::Url::set_path`: replaces the path component, all else unchanged. -/
def Url.setPath (u : Url) (p : String) : Url :=
  { u with path := p }

/-- `url::Url::set_query`: replaces the query component, all else unchanged. -/
def Url.setQuery (u : Url) (q : Option String) : Url :=
  { u with query := q }

/-- Modelled from the spec: the header-name constants `HDR_KEY_ID` and
`HDR_SECRET` live in `crate::api`, which is not among the staged sources; the
spec (§4.2, §6) only requires two fixed headers carrying the key id and the
secret verbatim. Their concrete names play no role in any claim. -/
def HDR_KEY_ID : String := "APCA-API-KEY-ID"

/-- Modelled from the spec: see `HDR_KEY_ID`. -/
def HDR_SECRET : String := "APCA-API-SECRET-KEY"

/-- A transport-ready request as assembled by `Endpoint::request`: method,
full URL, header list and body. Header values are raw byte strings. -/
structure HttpRequest where
  method : Method
  uri : Url
  headers : List (String × List Nat)
  body : List Nat
deriving DecidableEq

/-- The `Endpoint` trait of `endpoint.rs`, restricted to the request-building
members (`method`, `path`, `query`, `body`). The defaults mirror the trait's
default implementations: GET, no query, empty body. `parse` is handled
separately by the status classifier, which receives it as a function. -/
structure Endpoint (Input : Type) where
  method : Method := Method.GET
  path : Input → String
  query : Input → Option String := fun _ => none
  body : Input → Except JsonError (List Nat) := fun _ => Except.ok []

/-- `Endpoint::request`: clone the base URL, replace its path by
`Self::path(input)` and its query by `Self::query(input)`, then build the
request with the endpoint's method, the two authentication headers carrying
the key id and secret bytes unchanged, and `Self::body(input)` as body. A
body-serialization failure propagates as `EndpointError::Json` (the `?` on
`Self::body(input)`); `hyper`'s builder-side syntactic validation of the
URI/headers is not modelled, as no claim concerns it. -/
def Endpoint.request {Input : Type} (ep : Endpoint Input) (apiBase : Url)
    (keyId : List Nat) (secret : List Nat) (input : Input) :
    Except EndpointError HttpRequest :=
  let url := (apiBase.setPath (ep.path input)).setQuery (ep.query input)
  match ep.body input with
  | Except.error e => Except.error (EndpointError.json e)
  | Except.ok b =>
      Except.ok
        { method := ep.method
          uri := url
          headers := [(HDR_KEY_ID, keyId), (HDR_SECRET, secret)]
          body := b }

/-- The error enum generated by `EndpointDefImpl!` for one endpoint: the named
per-table variants (`$variant`), plus the three fixed variants
`UnexpectedStatus`, `Hyper` and `Json`. Named variants are identified by
their variant name; a Rust enum cannot declare the same variant twice, so a
well-formed table has pairwise distinct variant names. -/
inductive EpError where
  | namedVariant (variant : String)
  | unexpectedStatus (status : Nat)
  | hyper (e : HyperError)
  | json (e : JsonError)
deriving DecidableEq

/-- The two entries `EndpointDef!` prepends to every user status table:
`/* 401 */ UNAUTHORIZED => AuthenticationFailed` and
`/* 429 */ TOO_MANY_REQUESTS => RateLimitExceeded`. -/
def implicitStatusEntries : List (Nat × String) :=
  [(401, "AuthenticationFailed"), (429, "RateLimitExceeded")]

/-- The `From<(StatusCode, Vec<u8>)>` impl generated by `EndpointDefImpl!`:
a `match` on the status whose arms are, in order, one arm per declared
success status (running `$name::parse` on the body and passing its result
through), one arm per status-table entry (in table order, producing that
entry's variant), and a catch-all producing `UnexpectedStatus(status)`.
Rust `match` takes the first matching arm, so the success arms shadow any
table entry for the same status, and an earlier table entry shadows a later
one for the same status. -/
def convertFromStatus {Output : Type} (okStatuses : List Nat)
    (errEntries : List (Nat × String))
    (parse : List Nat → Except EpError Output)
    (status : Nat) (body : List Nat) : Except EpError Output :=
  if status ∈ okStatuses then
    match parse body with
    | Except.ok obj => Except.ok obj
    | Except.error err => Except.error err
  else
    match errEntries.find? (fun e => e.1 == status) with
    | some e => Except.error (EpError.namedVariant e.2)
    | none => Except.error (EpError.unexpectedStatus status)

/-- The classifier of an endpoint declared through `EndpointDef!`: the user
table is first augmented with the two implicit entries (prepended, so they
win over any user entry for 401/429), then `EndpointDefImpl!` generates the
`From` impl embodied by `convertFromStatus`. -/
def endpointDefClassify {Output : Type} (okStatuses : List Nat)
    (userEntries : List (Nat × String))
    (parse : List Nat → Except EpError Output)
    (status : Nat) (body : List Nat) : Except EpError Output :=
  convertFromStatus okStatuses (implicitStatusEntries ++ userEntries) parse
    status body

/-- The variants of `crate::Error` that the generated `From<$err>` impl in
`endpoint.rs` constructs (`HttpStatus`, `Hyper`, `Json`). The full enum
lives at the crate root, outside the staged sources; only these variants
matter here. -/
inductive CrateError where
  | httpStatus (status : Nat)
  | hyper (e : HyperError)
  | json (e : JsonError)
deriving DecidableEq

/-- The `From<$err> for crate::Error` impl generated by `EndpointDefImpl!`:
each named table variant maps to `Error::HttpStatus` of the status it was
declared under, `UnexpectedStatus(status)` maps to `Error::HttpStatus(status)`,
and `Hyper`/`Json` map to the same-named crate variants. The Rust `match` is
over a closed enum whose named variants are exactly the table's, so every
named variant matches the arm of the (unique) table entry declaring it; in
the model a name-based lookup expresses this, and `none` — a variant no
table entry declares — corresponds to no Rust code path at all, hence the
`Option` result. -/
def errorToCrate (errEntries : List (Nat × String)) : EpError → Option CrateError
  | EpError.namedVariant v =>
      (errEntries.find? (fun e => e.2 == v)).map
        (fun e => CrateError.httpStatus e.1)
  | EpError.unexpectedStatus s => some (CrateError.httpStatus s)
  | EpError.hyper e => some (CrateError.hyper e)
  | EpError.json e => some (CrateError.json e)

/-- `prefix.rs`: `enum MarketPrefix { Stocks, Crypto }`. (The Rust field
holding it is called `prefix`; the model names it `marketPrefix`.) -/
inductive MarketPrefix where
  | Stocks
  | Crypto
deriving DecidableEq

/-- The `Display` impl of `MarketPrefix`: `Stocks` renders `/v2/stocks/` and
`Crypto` renders `/v1beta3/crypto/us/`. -/
def MarketPrefix.display : MarketPrefix → String
  | MarketPrefix.Stocks => "/v2/stocks/"
  | MarketPrefix.Crypto => "/v1beta3/crypto/us/"

/-- The `Default` impl of `MarketPrefix`: `Stocks`. -/
def MarketPrefix.default : MarketPrefix :=
  MarketPrefix.Stocks

/-- The name under which the derived `Serialize` impl renders each
`MarketPrefix` variant: the enum carries no serde rename attributes, so a
unit variant serializes as its identifier. -/
def MarketPrefix.serdeName : MarketPrefix → String
  | MarketPrefix.Stocks => "Stocks"
  | MarketPrefix.Crypto => "Crypto"

/-- Modelled from the spec: `Feed` lives in `src/data/v2/feed.rs`, which is
not among the staged sources. The spec's glossary describes it as "a
data-source tier selector (e.g., a free vs. premium market-data source)
passed through as a plain query parameter"; the tests of the staged files
use the IEX and SIP tiers. Claims only depend on a `Some` feed contributing
one `feed` parameter and a `None` feed contributing none. -/
inductive Feed where
  | IEX
  | SIP
deriving DecidableEq

/-- Modelled from the spec: the string a `Feed` value serializes to (a plain
query-parameter value; see `Feed`). -/
def Feed.serdeName : Feed → String
  | Feed.IEX => "iex"
  | Feed.SIP => "sip"

/-- `trades.rs`: `struct ListReq`, in the source's field order. `symbol`
carries `#[serde(skip)]`; `marketPrefix` (Rust `prefix`) carries no serde
attribute; `limit`, `start`, `end`, `feed` carry only renames to their own
names; `page_token` additionally carries
`skip_serializing_if = "Option::is_none"`. `start`/`end` hold the rendered
RFC-3339 timestamp. -/
structure TradesListReq where
  symbol : String
  marketPrefix : MarketPrefix
  limit : Option Nat
  start : String
  «end» : String
  feed : Option Feed
  page_token : Option String
deriving DecidableEq

/-- `quotes.rs`: `struct ListReq`, in the source's field order (it differs
from the trades struct: `start`/`end` precede `limit`). `symbol` carries
`#[serde(skip)]`; `marketPrefix` (Rust `prefix`) carries no serde attribute;
the remaining fields carry renames to their own names. -/
structure QuotesListReq where
  symbol : String
  marketPrefix : MarketPrefix
  start : String
  «end» : String
  limit : Option Nat
  feed : Option Feed
  page_token : Option String
deriving DecidableEq

/-- One optional query parameter: `serde_urlencoded` emits nothing for a
`None` option (its pair serializer drops the key), and one `name=value` pair
for a `Some`. The `skip_serializing_if = "Option::is_none"` attribute on the
trades `page_token` is therefore redundant and both structs behave alike on
absent options. -/
def optQueryParam (name : String) : Option String → List (String × String)
  | some v => [(name, v)]
  | none => []

/-- The query pairs `serde_urlencoded::to_string` produces for the trades
`ListReq`, in field order: the non-skipped fields each contribute their
pair, options only when present. `usize` limits render in decimal. -/
def tradesQueryParams (r : TradesListReq) : List (String × String) :=
  ("prefix", r.marketPrefix.serdeName)
    :: (optQueryParam "limit" (r.limit.map toString)
      ++ [("start", r.start), ("end", r.«end»)]
      ++ optQueryParam "feed" (r.feed.map Feed.serdeName)
      ++ optQueryParam "page_token" r.page_token)

/-- The query pairs `serde_urlencoded::to_string` produces for the quotes
`ListReq`, in field order. -/
def quotesQueryParams (r : QuotesListReq) : List (String × String) :=
  ("prefix", r.marketPrefix.serdeName)
    :: ([("start", r.start), ("end", r.«end»)]
      ++ optQueryParam "limit" (r.limit.map toString)
      ++ optQueryParam "feed" (r.feed.map Feed.serdeName)
      ++ optQueryParam "page_token" r.page_token)

/-- The names of the parameters a query pair list carries. -/
def paramNames (ps : List (String × String)) : List String :=
  ps.map Prod.fst

/-- `trades.rs`, `List::path`:
`format!("{}{}/bars", input.prefix, input.symbol)` — note the `/bars`
segment in the format string. -/
def tradesListPath (input : TradesListReq) : String :=
  input.marketPrefix.display ++ input.symbol ++ "/bars"

/-- `quotes.rs`, `List::path`:
`format!("{}{}/quotes", input.prefix, input.symbol)`. -/
def quotesListPath (input : QuotesListReq) : String :=
  input.marketPrefix.display ++ input.symbol ++ "/quotes"

/-- A JSON value as `serde_json` sees a response body. Numbers are modelled
as integers: no claim under verification depends on non-integral numerics. -/
inductive Json where
  | null
  | bool (b : Bool)
  | num (n : Int)
  | str (s : String)
  | arr (elems : List Json)
  | obj (fields : List (String × Json))

/-- `trades.rs`: `struct Trade` with its serde renames — `t` (a timestamp,
kept as the RFC-3339 string; chrono requires a JSON string there), `p` (the
price) and `s` (the size, a `usize`). -/
structure TradeVal where
  t : String
  p : Int
  s : Nat
deriving DecidableEq

/-- The field loop of the derived `Deserialize` for `Trade`: visit the
object's entries in order, fill each known field once (a second occurrence
is a duplicate-field error), skip unknown keys, and report the first missing
required field at the end. -/
def parseTradeFields :
    List (String × Json) → Option String → Option Int → Option Nat →
    Except String TradeVal
  | [], t?, p?, s? =>
      match t? with
      | none => Except.error "missing field t"
      | some tv =>
        match p? with
        | none => Except.error "missing field p"
        | some pv =>
          match s? with
          | none => Except.error "missing field s"
          | some sv => Except.ok ⟨tv, pv, sv⟩
  | (k, v) :: rest, t?, p?, s? =>
    if k = "t" then
      match t? with
      | some _ => Except.error "duplicate field t"
      | none =>
        match v with
        | Json.str sv => parseTradeFields rest (some sv) p? s?
        | _ => Except.error "invalid type for t"
    else if k = "p" then
      match p? with
      | some _ => Except.error "duplicate field p"
      | none =>
        match v with
        | Json.num n => parseTradeFields rest t? (some n) s?
        | _ => Except.error "invalid type for p"
    else if k = "s" then
      match s? with
      | some _ => Except.error "duplicate field s"
      | none =>
        match v with
        | Json.num n =>
            if n < 0 then Except.error "invalid value for s"
            else parseTradeFields rest t? p? (some n.toNat)
        | _ => Except.error "invalid type for s"
    else parseTradeFields rest t? p? s?

/-- `Trade` deserializes from a JSON object (see `parseTradeFields`). -/
def parseTradeItem : Json → Except String TradeVal
  | Json.obj fields => parseTradeFields fields none none none
  | _ => Except.error "invalid type: expected object"

/-- Modelled from the spec: `Quote` is re-exported from
`src/data/v2/last_quotes.rs`, which is not among the staged sources, and the
spec (§1) keeps per-object field schemas out of scope. A quote item is a
JSON object; its fields play no role in any claim. -/
def parseQuoteItem : Json → Except String Unit
  | Json.obj _ => Except.ok ()
  | _ => Except.error "invalid type: expected object"

/-- One page of a list response: the items, the `symbol` and the
`next_page_token` fields shared by `Trades` (`trades.rs`) and `Quotes`
(`quotes.rs`). -/
structure ListPage (α : Type) where
  items : List α
  symbol : String
  next_page_token : Option String
deriving DecidableEq

/-- Modelled from the spec: `crate::util::vec_from_str`, used via
`deserialize_with` on the items field, is not among the staged sources. Per
the spec (§6) the items field is a JSON array; the helper additionally
accepts `null` as the empty list (it deserializes `Option<Vec<T>>` and
defaults). -/
def vec_from_str {α : Type} (parseItem : Json → Except String α) :
    Json → Except String (List α)
  | Json.null => Except.ok []
  | Json.arr elems => elems.mapM parseItem
  | _ => Except.error "invalid type: expected array"

/-- `String::deserialize`: the JSON value must be a string. -/
def readString : Json → Except String String
  | Json.str s => Except.ok s
  | _ => Except.error "invalid type: expected string"

/-- `Option::<String>::deserialize`: JSON `null` is `None`, a string is
`Some`, anything else is a type error. -/
def readOptString : Json → Except String (Option String)
  | Json.null => Except.ok none
  | Json.str s => Except.ok (some s)
  | _ => Except.error "invalid type: expected string or null"

/-- The end of the derived `Deserialize` field loop for `Trades` / `Quotes`:
a missing items or `symbol` field is an error, while a missing
`next_page_token` defaults to `None` (serde's behaviour for an `Option`
field without a value). -/
def finishPage {α : Type} (items? : Option (List α)) (symbol? : Option String)
    (token? : Option (Option String)) : Except String (ListPage α) :=
  match items? with
  | none => Except.error "missing items field"
  | some items =>
    match symbol? with
    | none => Except.error "missing field symbol"
    | some sym => Except.ok ⟨items, sym, token?.getD none⟩

/-- The field loop of the derived `Deserialize` for `Trades` / `Quotes`:
entries are visited in order; the items field (named `itemsKey`, through
`vec_from_str`), `symbol` (a string) and `next_page_token` (an
`Option<String>`) are each filled once — a second occurrence is a
duplicate-field error — and unknown keys are skipped. `finishPage` closes
the loop. -/
def parsePageFields {α : Type} (parseItem : Json → Except String α)
    (itemsKey : String) :
    List (String × Json) → Option (List α) → Option String →
    Option (Option String) → Except String (ListPage α)
  | [], items?, symbol?, token? => finishPage items? symbol? token?
  | (k, v) :: rest, items?, symbol?, token? =>
    if k = itemsKey then
      if items?.isSome then Except.error "duplicate items field"
      else
        (vec_from_str parseItem v).bind fun items =>
          parsePageFields parseItem itemsKey rest (some items) symbol? token?
    else if k = "symbol" then
      if symbol?.isSome then Except.error "duplicate field symbol"
      else
        (readString v).bind fun sv =>
          parsePageFields parseItem itemsKey rest items? (some sv) token?
    else if k = "next_page_token" then
      if token?.isSome then Except.error "duplicate field next_page_token"
      else
        (readOptString v).bind fun t =>
          parsePageFields parseItem itemsKey rest items? symbol? (some t)
    else parsePageFields parseItem itemsKey rest items? symbol? token?

/-- `Trades::deserialize`: a JSON object whose fields are read by
`parsePageFields` with items key `trades`. -/
def parseTrades : Json → Except String (ListPage TradeVal)
  | Json.obj fields => parsePageFields parseTradeItem "trades" fields none none none
  | _ => Except.error "invalid type: expected object"

/-- `Quotes::deserialize`: a JSON object whose fields are read by
`parsePageFields` with items key `quotes`. -/
def parseQuotes : Json → Except String (ListPage Unit)
  | Json.obj fields => parsePageFields parseQuoteItem "quotes" fields none none none
  | _ => Except.error "invalid type: expected object"

/-- Remove every entry of a given key from a JSON object's field list. -/
def dropField (name : String) (fields : List (String × Json)) :
    List (String × Json) :=
  fields.filter (fun kv => kv.1 != name)

/-- Replace the value of every entry of a given key by JSON `null`. -/
def nullifyField (name : String) (fields : List (String × Json)) :
    List (String × Json) :=
  fields.map (fun kv => if kv.1 = name then (kv.1, Json.null) else kv)

/-- Dropping the `next_page_token` entries from an otherwise successfully
deserialized object keeps deserialization successful and yields a `None`
token: serde fills a missing `Option` field with `None`. The accumulators
are generalized so the induction passes every intermediate state. -/
theorem parsePageFields_dropToken {α : Type} (parseItem : Json → Except String α)
    (itemsKey : String) (hk : itemsKey ≠ "next_page_token") :
    ∀ (fields : List (String × Json)) (items? : Option (List α))
      (symbol? : Option String) (token? : Option (Option String))
      (out : ListPage α),
      parsePageFields parseItem itemsKey fields items? symbol? token? =
        Except.ok out →
      parsePageFields parseItem itemsKey (dropField "next_page_token" fields)
        items? symbol? none = Except.ok { out with next_page_token := none } := by
  intro fields
  induction fields with
  | nil =>
      intro items? symbol? token? out h
      cases items? with
      | none => exact Except.noConfusion h
      | some items =>
        cases symbol? with
        | none => exact Except.noConfusion h
        | some sym =>
            have h' : (Except.ok ⟨items, sym, token?.getD none⟩ :
                Except String (ListPage α)) = Except.ok out := h
            injection h' with h''
            subst h''
            rfl
  | cons kv rest ih =>
      intro items? symbol? token? out h
      obtain ⟨k, v⟩ := kv
      by_cases hik : k = itemsKey
      · rw [parsePageFields, if_pos hik] at h
        cases items? with
        | some _ => exact Except.noConfusion h
        | none =>
            cases hv : vec_from_str parseItem v with
            | error e => rw [hv] at h; exact Except.noConfusion h
            | ok items =>
                rw [hv] at h
                have hkt : k ≠ "next_page_token" := by rw [hik]; exact hk
                have hdrop : dropField "next_page_token" ((k, v) :: rest) =
                    (k, v) :: dropField "next_page_token" rest := by
                  simp [dropField, hkt]
                rw [hdrop, parsePageFields, if_pos hik, hv]
                exact ih (some items) symbol? token? out h
      · by_cases hsym : k = "symbol"
        · rw [parsePageFields, if_neg hik, if_pos hsym] at h
          cases symbol? with
          | some _ => exact Except.noConfusion h
          | none =>
              cases hrv : readString v with
              | error e => rw [hrv] at h; exact Except.noConfusion h
              | ok sv =>
                  rw [hrv] at h
                  have hkt : k ≠ "next_page_token" := by rw [hsym]; decide
                  have hdrop : dropField "next_page_token" ((k, v) :: rest) =
                      (k, v) :: dropField "next_page_token" rest := by
                    simp [dropField, hkt]
                  rw [hdrop, parsePageFields, if_neg hik, if_pos hsym, hrv]
                  exact ih items? (some sv) token? out h
        · by_cases htok : k = "next_page_token"
          · rw [parsePageFields, if_neg hik, if_neg hsym, if_pos htok] at h
            cases token? with
            | some _ => exact Except.noConfusion h
            | none =>
                cases hrt : readOptString v with
                | error e => rw [hrt] at h; exact Except.noConfusion h
                | ok t =>
                    rw [hrt] at h
                    have hdrop : dropField "next_page_token" ((k, v) :: rest) =
                        dropField "next_page_token" rest := by
                      simp [dropField, htok]
                    rw [hdrop]
                    exact ih items? symbol? (some t) out h
          · rw [parsePageFields, if_neg hik, if_neg hsym, if_neg htok] at h
            have hdrop : dropField "next_page_token" ((k, v) :: rest) =
                (k, v) :: dropField "next_page_token" rest := by
              simp [dropField, htok]
            rw [hdrop, parsePageFields, if_neg hik, if_neg hsym, if_neg htok]
            exact ih items? symbol? token? out h

/-- Replacing the `next_page_token` value of an otherwise successfully
deserialized object by JSON `null` keeps deserialization successful and
yields a `None` token: serde deserializes a `null` into an `Option` field as
`None`. -/
theorem parsePageFields_nullifyToken {α : Type}
    (parseItem : Json → Except String α) (itemsKey : String)
    (hk : itemsKey ≠ "next_page_token") :
    ∀ (fields : List (String × Json)) (items? : Option (List α))
      (symbol? : Option String) (token? : Option (Option String))
      (out : ListPage α),
      parsePageFields parseItem itemsKey fields items? symbol? token? =
        Except.ok out →
      parsePageFields parseItem itemsKey (nullifyField "next_page_token" fields)
        items? symbol? (token?.map fun _ => none) =
        Except.ok { out with next_page_token := none } := by
  intro fields
  induction fields with
  | nil =>
      intro items? symbol? token? out h
      cases items? with
      | none => exact Except.noConfusion h
      | some items =>
        cases symbol? with
        | none => exact Except.noConfusion h
        | some sym =>
            have h' : (Except.ok ⟨items, sym, token?.getD none⟩ :
                Except String (ListPage α)) = Except.ok out := h
            injection h' with h''
            subst h''
            cases token? with
            | none => rfl
            | some t => rfl
  | cons kv rest ih =>
      intro items? symbol? token? out h
      obtain ⟨k, v⟩ := kv
      by_cases hik : k = itemsKey
      · rw [parsePageFields, if_pos hik] at h
        cases items? with
        | some _ => exact Except.noConfusion h
        | none =>
            cases hv : vec_from_str parseItem v with
            | error e => rw [hv] at h; exact Except.noConfusion h
            | ok items =>
                rw [hv] at h
                have hkt : k ≠ "next_page_token" := by rw [hik]; exact hk
                have hnull : nullifyField "next_page_token" ((k, v) :: rest) =
                    (k, v) :: nullifyField "next_page_token" rest := by
                  simp [nullifyField, hkt]
                rw [hnull, parsePageFields, if_pos hik, hv]
                exact ih (some items) symbol? token? out h
      · by_cases hsym : k = "symbol"
        · rw [parsePageFields, if_neg hik, if_pos hsym] at h
          cases symbol? with
          | some _ => exact Except.noConfusion h
          | none =>
              cases hrv : readString v with
              | error e => rw [hrv] at h; exact Except.noConfusion h
              | ok sv =>
                  rw [hrv] at h
                  have hkt : k ≠ "next_page_token" := by rw [hsym]; decide
                  have hnull : nullifyField "next_page_token" ((k, v) :: rest) =
                      (k, v) :: nullifyField "next_page_token" rest := by
                    simp [nullifyField, hkt]
                  rw [hnull, parsePageFields, if_neg hik, if_pos hsym, hrv]
                  exact ih items? (some sv) token? out h
        · by_cases htok : k = "next_page_token"
          · rw [parsePageFields, if_neg hik, if_neg hsym, if_pos htok] at h
            cases token? with
            | some _ => exact Except.noConfusion h
            | none =>
                cases hrt : readOptString v with
                | error e => rw [hrt] at h; exact Except.noConfusion h
                | ok t =>
                    rw [hrt] at h
                    have hnull : nullifyField "next_page_token" ((k, v) :: rest) =
                        ("next_page_token", Json.null) ::
                          nullifyField "next_page_token" rest := by
                      simp [nullifyField, htok]
                    rw [hnull, parsePageFields, if_neg (Ne.symm hk),
                      if_neg (by decide), if_pos rfl]
                    exact ih items? symbol? (some t) out h
          · rw [parsePageFields, if_neg hik, if_neg hsym, if_neg htok] at h
            have hnull : nullifyField "next_page_token" ((k, v) :: rest) =
                (k, v) :: nullifyField "next_page_token" rest := by
              simp [nullifyField, htok]
            rw [hnull, parsePageFields, if_neg hik, if_neg hsym, if_neg htok]
            exact ih items? symbol? token? out h

/-- C7: a response body whose `next_page_token` field is missing or JSON
`null` decodes successfully to an output whose token is `None`, never to a
decode error: relative to any body that decodes at all, removing the token
field, or nulling its value, keeps `Trades`/`Quotes` deserialization
successful and produces `next_page_token = None`. -/
theorem parse_next_page_token_missing_or_null :
    (∀ (fields : List (String × Json)) (out : ListPage TradeVal),
      parseTrades (Json.obj fields) = Except.ok out →
      parseTrades (Json.obj (dropField "next_page_token" fields)) =
        Except.ok { out with next_page_token := none } ∧
      parseTrades (Json.obj (nullifyField "next_page_token" fields)) =
        Except.ok { out with next_page_token := none }) ∧
    (∀ (fields : List (String × Json)) (out : ListPage Unit),
      parseQuotes (Json.obj fields) = Except.ok out →
      parseQuotes (Json.obj (dropField "next_page_token" fields)) =
        Except.ok { out with next_page_token := none } ∧
      parseQuotes (Json.obj (nullifyField "next_page_token" fields)) =
        Except.ok { out with next_page_token := none }) := by
  constructor
  · intro fields out h
    exact ⟨parsePageFields_dropToken parseTradeItem "trades" (by decide)
        fields none none none out h,
      parsePageFields_nullifyToken parseTradeItem "trades" (by decide)
        fields none none none out h⟩
  · intro fields out h
    exact ⟨parsePageFields_dropToken parseQuoteItem "quotes" (by decide)
        fields none none none out h,
      parsePageFields_nullifyToken parseQuoteItem "quotes" (by decide)
        fields none none none out h⟩

/-- Witness for `parse_next_page_token_missing_or_null` on a concrete trades
body carrying a token: dropping or nulling the token field still decodes,
with a `None` token. -/
theorem parse_next_page_token_missing_or_null_witness :
    parseTrades (Json.obj [("trades", Json.arr []), ("symbol", Json.str "S"),
        ("next_page_token", Json.str "x")]) = Except.ok ⟨[], "S", some "x"⟩ ∧
    (parseTrades (Json.obj (dropField "next_page_token"
        [("trades", Json.arr []), ("symbol", Json.str "S"),
          ("next_page_token", Json.str "x")])) = Except.ok ⟨[], "S", none⟩ ∧
      parseTrades (Json.obj (nullifyField "next_page_token"
        [("trades", Json.arr []), ("symbol", Json.str "S"),
          ("next_page_token", Json.str "x")])) = Except.ok ⟨[], "S", none⟩) :=
  ⟨rfl,
    parse_next_page_token_missing_or_null.1
      [("trades", Json.arr []), ("symbol", Json.str "S"),
        ("next_page_token", Json.str "x")]
      ⟨[], "S", some "x"⟩ rfl⟩

/-- C2: for every status code outside the declared success set and without an
entry in the endpoint's status table (the two implicit 401/429 entries
included), classification returns `Err(UnexpectedStatus(status))` carrying
that exact code. The classifier is a total Lean function of the
(status, body) pair, so every status maps to exactly one outcome and no
input reaches a panic or unreachable branch. -/
theorem classify_unexpected_status {Output : Type} (okStatuses : List Nat)
    (userEntries : List (Nat × String))
    (parse : List Nat → Except EpError Output) (status : Nat) (body : List Nat)
    (hok : status ∉ okStatuses)
    (huser : ∀ e ∈ userEntries, e.1 ≠ status)
    (h401 : status ≠ 401) (h429 : status ≠ 429) :
    endpointDefClassify okStatuses userEntries parse status body =
      Except.error (EpError.unexpectedStatus status) := by
  unfold endpointDefClassify convertFromStatus
  rw [if_neg hok]
  have hfind :
      (implicitStatusEntries ++ userEntries).find? (fun e => e.1 == status) =
        none := by
    rw [List.find?_eq_none]
    intro e he
    rcases List.mem_append.mp he with hi | hu
    · simp only [implicitStatusEntries, List.mem_cons, List.mem_singleton] at hi
      rcases hi with h | h | h
      · subst h; simpa using fun h => h401 h.symm
      · subst h; simpa using fun h => h429 h.symm
      · cases h
    · simpa using fun h => huser e hu h
  rw [hfind]

/-- Witness for `classify_unexpected_status` at a concrete endpoint
definition and the teapot status 418. -/
theorem classify_unexpected_status_witness :
    endpointDefClassify [200] [(400, "InvalidInput")]
        (fun _ => Except.ok (0 : Nat)) 418 [] =
      Except.error (EpError.unexpectedStatus 418) :=
  classify_unexpected_status [200] [(400, "InvalidInput")]
    (fun _ => Except.ok (0 : Nat)) 418 [] (by decide) (by decide) (by decide)
    (by decide)

/-- C3: for a status in the declared success set the classifier returns
exactly the result of `Endpoint::parse` on the body (`Ok` when parse
succeeds, the parse error otherwise), and for a status outside the success
set the outcome does not depend on `parse` at all — `parse` is never
invoked there. -/
theorem classify_success_uses_parse {Output : Type} (okStatuses : List Nat)
    (userEntries : List (Nat × String))
    (parse₁ parse₂ : List Nat → Except EpError Output) (status : Nat)
    (body : List Nat) :
    (status ∈ okStatuses →
      endpointDefClassify okStatuses userEntries parse₁ status body =
        parse₁ body) ∧
    (status ∉ okStatuses →
      endpointDefClassify okStatuses userEntries parse₁ status body =
        endpointDefClassify okStatuses userEntries parse₂ status body) := by
  constructor
  · intro hok
    unfold endpointDefClassify convertFromStatus
    rw [if_pos hok]
    cases parse₁ body <;> rfl
  · intro hok
    unfold endpointDefClassify convertFromStatus
    rw [if_neg hok, if_neg hok]

/-- Witness for `classify_success_uses_parse`: the trades/quotes table
(success 200, user entry 400) with a parser returning 7, checked at 200 and,
against a second parser, at 400. -/
theorem classify_success_uses_parse_witness :
    endpointDefClassify [200] [(400, "InvalidInput")]
        (fun _ => Except.ok (7 : Nat)) 200 [] = Except.ok 7 ∧
    endpointDefClassify [200] [(400, "InvalidInput")]
        (fun _ => Except.ok (7 : Nat)) 400 [] =
      endpointDefClassify [200] [(400, "InvalidInput")]
        (fun _ => Except.error (EpError.json ⟨"boom"⟩)) 400 [] :=
  ⟨(classify_success_uses_parse [200] [(400, "InvalidInput")]
      (fun _ => Except.ok (7 : Nat)) (fun _ => Except.ok (7 : Nat)) 200 []).1
      (by decide),
   (classify_success_uses_parse [200] [(400, "InvalidInput")]
      (fun _ => Except.ok (7 : Nat))
      (fun _ => Except.error (EpError.json ⟨"boom"⟩)) 400 []).2 (by decide)⟩

/-- C1 counterexample: the claim quantifies over every endpoint defined
through `EndpointDef!`, but the macro accepts `UNAUTHORIZED` among the
declared success statuses, and the generated success arms precede the
implicit 401 table entry; for such an endpoint a 401 response is parsed and
classification yields `Ok`, not `AuthenticationFailed`. -/
theorem classify_401_success_arm_counterexample :
    endpointDefClassify [401] [] (fun _ => Except.ok (0 : Nat)) 401 [] =
      Except.ok 0 ∧
    endpointDefClassify [401] [] (fun _ => Except.ok (0 : Nat)) 401 [] ≠
      Except.error (EpError.namedVariant "AuthenticationFailed") :=
  ⟨rfl, fun h => Except.noConfusion h⟩

/-- C1 amended: for every endpoint defined through `EndpointDef!` whose
declared success statuses include neither 401 nor 429 — true of every
endpoint in the repository — classifying a 401 response yields
`AuthenticationFailed` and classifying 429 yields `RateLimitExceeded`, for
every body and every user status table: a user table entry for 401 or 429
cannot change this outcome. -/
theorem classify_implicit_auth_rate_limit {Output : Type}
    (okStatuses : List Nat) (userEntries : List (Nat × String))
    (parse : List Nat → Except EpError Output) (body : List Nat)
    (h401 : 401 ∉ okStatuses) (h429 : 429 ∉ okStatuses) :
    endpointDefClassify okStatuses userEntries parse 401 body =
      Except.error (EpError.namedVariant "AuthenticationFailed") ∧
    endpointDefClassify okStatuses userEntries parse 429 body =
      Except.error (EpError.namedVariant "RateLimitExceeded") := by
  unfold endpointDefClassify convertFromStatus
  rw [if_neg h401, if_neg h429]
  simp [implicitStatusEntries, List.find?]

/-- Witness for `classify_implicit_auth_rate_limit`: an endpoint whose user
table even tries to rebind 401 and 429; the implicit entries still win. -/
theorem classify_implicit_auth_rate_limit_witness :
    endpointDefClassify [200]
        [(400, "InvalidInput"), (401, "Shadowed"), (429, "AlsoShadowed")]
        (fun _ => Except.ok (0 : Nat)) 401 [] =
      Except.error (EpError.namedVariant "AuthenticationFailed") ∧
    endpointDefClassify [200]
        [(400, "InvalidInput"), (401, "Shadowed"), (429, "AlsoShadowed")]
        (fun _ => Except.ok (0 : Nat)) 429 [] =
      Except.error (EpError.namedVariant "RateLimitExceeded") :=
  classify_implicit_auth_rate_limit [200]
    [(400, "InvalidInput"), (401, "Shadowed"), (429, "AlsoShadowed")]
    (fun _ => Except.ok (0 : Nat)) [] (by decide) (by decide)

/-- C5 (code bug): the trades list endpoint's `path` appends the `/bars`
segment, not `/trades`: for `MarketPrefix::Stocks` and symbol `AAPL` it
produces `/v2/stocks/AAPL/bars`, although the endpoint's own doc comments
name the `/v2/stocks/{symbol}/trades` endpoint. -/
theorem trades_path_is_bars_not_trades :
    tradesListPath
        ⟨"AAPL", MarketPrefix.Stocks, some 2, "2018-12-03T21:47:00Z",
          "2018-12-06T21:47:00Z", none, none⟩ = "/v2/stocks/AAPL/bars" ∧
    tradesListPath
        ⟨"AAPL", MarketPrefix.Stocks, some 2, "2018-12-03T21:47:00Z",
          "2018-12-06T21:47:00Z", none, none⟩ ≠ "/v2/stocks/AAPL/trades" ∧
    tradesListPath
        ⟨"BTCUSD", MarketPrefix.Crypto, none, "2018-12-03T21:47:00Z",
          "2018-12-06T21:47:00Z", none, none⟩ = "/v1beta3/crypto/us/BTCUSD/bars" :=
  ⟨by decide, by decide, by decide⟩

/-- C6: the quotes list endpoint's path is the market prefix's resolved
segment, then the symbol, then `/quotes`; `Stocks` with symbol `SPY` gives
`/v2/stocks/SPY/quotes`, and the resolver is the total mapping sending
`Stocks` to `/v2/stocks/` and `Crypto` to `/v1beta3/crypto/us/`. -/
theorem quotes_path_resolution :
    (∀ input : QuotesListReq,
      quotesListPath input =
        input.marketPrefix.display ++ input.symbol ++ "/quotes") ∧
    quotesListPath
        ⟨"SPY", MarketPrefix.Stocks, "2022-01-04T13:35:59Z",
          "2022-01-04T13:36:00Z", none, none, none⟩ = "/v2/stocks/SPY/quotes" ∧
    MarketPrefix.display MarketPrefix.Stocks = "/v2/stocks/" ∧
    MarketPrefix.display MarketPrefix.Crypto = "/v1beta3/crypto/us/" :=
  ⟨fun _ => rfl, by decide, rfl, rfl⟩

/-- C10: `MarketPrefix::default()` is `Stocks`, so a list request built with
a defaulted market prefix resolves to a path under `/v2/stocks/`, not under
the crypto segment. -/
theorem market_prefix_default_stocks :
    MarketPrefix.default = MarketPrefix.Stocks ∧
    MarketPrefix.default.display = "/v2/stocks/" ∧
    MarketPrefix.default.display ≠ "/v1beta3/crypto/us/" ∧
    (∀ (symbol startTime endTime : String) (limit : Option Nat)
      (feed : Option Feed) (tok : Option String),
      quotesListPath
          ⟨symbol, MarketPrefix.default, startTime, endTime, limit, feed, tok⟩ =
        "/v2/stocks/" ++ symbol ++ "/quotes" ∧
      tradesListPath
          ⟨symbol, MarketPrefix.default, limit, startTime, endTime, feed, tok⟩ =
        "/v2/stocks/" ++ symbol ++ "/bars") :=
  ⟨rfl, by decide, by decide, fun _ _ _ _ _ _ => ⟨rfl, rfl⟩⟩

/-- C4 (code bug): because the `prefix` field of both `ListReq` structs
carries no `#[serde(skip)]` attribute (unlike `symbol`), every serialized
query contains a `prefix=Stocks` or `prefix=Crypto` parameter in addition to
the service-defined ones; absent optional fields are correctly omitted. -/
theorem query_params_contain_market_prefix :
    quotesQueryParams
        ⟨"SPY", MarketPrefix.Stocks, "2022-01-04T13:35:59Z",
          "2022-01-04T13:36:00Z", none, none, none⟩ =
      [("prefix", "Stocks"), ("start", "2022-01-04T13:35:59Z"),
        ("end", "2022-01-04T13:36:00Z")] ∧
    "prefix" ∈ paramNames
      (quotesQueryParams
        ⟨"SPY", MarketPrefix.Stocks, "2022-01-04T13:35:59Z",
          "2022-01-04T13:36:00Z", none, none, none⟩) ∧
    tradesQueryParams
        ⟨"AAPL", MarketPrefix.Stocks, some 2, "2018-12-03T21:47:00Z",
          "2018-12-06T21:47:00Z", none, some "tok"⟩ =
      [("prefix", "Stocks"), ("limit", "2"), ("start", "2018-12-03T21:47:00Z"),
        ("end", "2018-12-06T21:47:00Z"), ("page_token", "tok")] :=
  ⟨by decide, by decide, by decide⟩

/-- C8: when body serialization succeeds, the assembled request's URL is the
base URL with exactly its path replaced by `Endpoint::path(input)` and its
query by `Endpoint::query(input)` — scheme, host and port unchanged — its
method is the endpoint's method, its body is `Endpoint::body(input)`'s
bytes, and its two authentication headers carry the key id and secret byte
strings verbatim. -/
theorem endpoint_request_shape {Input : Type} (ep : Endpoint Input)
    (apiBase : Url) (keyId secret : List Nat) (input : Input) (b : List Nat)
    (hb : ep.body input = Except.ok b) :
    ep.request apiBase keyId secret input =
      Except.ok
        { method := ep.method
          uri :=
            { scheme := apiBase.scheme
              host := apiBase.host
              port := apiBase.port
              path := ep.path input
              query := ep.query input }
          headers := [(HDR_KEY_ID, keyId), (HDR_SECRET, secret)]
          body := b } := by
  unfold Endpoint.request Url.setPath Url.setQuery
  rw [hb]

/-- Witness for `endpoint_request_shape` at a concrete endpoint and base
URL, with byte strings `[1, 2]` and `[3, 4]` as credentials. -/
theorem endpoint_request_shape_witness :
    Endpoint.request
        ({ path := fun _ => "/v2/stocks/SPY/quotes"
           query := fun _ => some "start=a&end=b" } : Endpoint Unit)
        ⟨"https", "data.alpaca.markets", none, "/", none⟩ [1, 2] [3, 4] () =
      Except.ok
        ⟨Method.GET,
          ⟨"https", "data.alpaca.markets", none, "/v2/stocks/SPY/quotes",
            some "start=a&end=b"⟩,
          [(HDR_KEY_ID, [1, 2]), (HDR_SECRET, [3, 4])], []⟩ :=
  endpoint_request_shape
    ({ path := fun _ => "/v2/stocks/SPY/quotes"
       query := fun _ => some "start=a&end=b" } : Endpoint Unit)
    ⟨"https", "data.alpaca.markets", none, "/", none⟩ [1, 2] [3, 4] () [] rfl

/-- C9: converting a classified error into the crate-level error preserves
the producing status code: when classifying a non-success status produced an
error (a table variant or `UnexpectedStatus`), the generated `From`
conversion yields `HttpStatus` carrying exactly that status. The `Nodup`
hypothesis records that the generated enum declares each variant name once —
Rust rejects a table whose variant names repeat. -/
theorem error_conversion_preserves_status {Output : Type}
    (okStatuses : List Nat) (userEntries : List (Nat × String))
    (parse : List Nat → Except EpError Output) (status : Nat) (body : List Nat)
    (e : EpError)
    (hnodup : ((implicitStatusEntries ++ userEntries).map Prod.snd).Nodup)
    (hok : status ∉ okStatuses)
    (hclass : endpointDefClassify okStatuses userEntries parse status body =
      Except.error e) :
    errorToCrate (implicitStatusEntries ++ userEntries) e =
      some (CrateError.httpStatus status) := by
  unfold endpointDefClassify convertFromStatus at hclass
  rw [if_neg hok] at hclass
  cases hfind :
      (implicitStatusEntries ++ userEntries).find? (fun p => p.1 == status) with
  | none =>
      rw [hfind] at hclass
      injection hclass with h
      subst h
      rfl
  | some p =>
      rw [hfind] at hclass
      injection hclass with h
      subst h
      have hps : p.1 = status := by simpa using List.find?_some hfind
      have hpm : p ∈ implicitStatusEntries ++ userEntries :=
        List.mem_of_find?_eq_some hfind
      show ((implicitStatusEntries ++ userEntries).find?
          (fun q => q.2 == p.2)).map (fun q => CrateError.httpStatus q.1) =
        some (CrateError.httpStatus status)
      cases hname :
          (implicitStatusEntries ++ userEntries).find? (fun q => q.2 == p.2) with
      | none =>
          exact absurd (by simp : ((fun q => q.2 == p.2) p) = true)
            (List.find?_eq_none.mp hname p hpm)
      | some q =>
          have hq2 : q.2 = p.2 := by simpa using List.find?_some hname
          have hqm : q ∈ implicitStatusEntries ++ userEntries :=
            List.mem_of_find?_eq_some hname
          have hqp : q = p :=
            List.inj_on_of_nodup_map hnodup hqm hpm hq2
          subst hqp
          simp [hps]

/-- Witness for `error_conversion_preserves_status`: the trades/quotes table
at status 400 — classification produces `InvalidInput` and its conversion
recovers `HttpStatus 400`. -/
theorem error_conversion_preserves_status_witness :
    errorToCrate (implicitStatusEntries ++ [(400, "InvalidInput")])
        (EpError.namedVariant "InvalidInput") =
      some (CrateError.httpStatus 400) :=
  error_conversion_preserves_status [200] [(400, "InvalidInput")]
    (fun _ => Except.ok (0 : Nat)) 400 [] (EpError.namedVariant "InvalidInput")
    (by decide) (by decide) rfl
